import Mathlib

/-!
Verification of the conversation-state and prompt-assembly logic of a
Telegram chat-relay bot (`bot.py`).

The bot keeps two in-memory dictionaries keyed by chat id:
`chat_histories : chat_id -> list of {role, content}` and
`system_prompts : chat_id -> optional system prompt string`.  We embed
them as total functions with the dictionary's default value (`[]`
respectively `none`), which is exactly how the Python code reads them
(`chat_histories.get(chat_id, [])`, `chat_id in system_prompts`).

The one external effect, the OpenAI chat-completions call, is passed in
as an `Except String String` value (error detail, or response content),
so `handle_message` is the pure function of that outcome that the
Python handler's try/except realises.
-/

/-- One chat message `{"role": ..., "content": ...}` as stored in
`chat_histories` and sent to the completions API. -/
structure Msg where
  role : String
  content : String
deriving DecidableEq, Repr

/-- The bot's whole mutable state: the two module-level dictionaries of
`bot.py`, as total maps with the dictionary default. -/
structure Store where
  chat_histories : Int → List Msg
  system_prompts : Int → Option String

/-- The state at interpreter start: both dictionaries empty. -/
def initStore : Store :=
  { chat_histories := fun _ => [], system_prompts := fun _ => none }

/-- Python's `lst[-n:]`: the last `n` elements (all of them when the
list is shorter). -/
def lastN (n : Nat) (l : List α) : List α :=
  l.drop (l.length - n)

/-- Embeds `add_user_message(chat_id, text)`: append a user turn, then keep
only the last 12 messages (`chat_histories[chat_id][-12:]`). -/
def add_user_message (chat_id : Int) (text : String) (s : Store) : Store :=
  { s with
    chat_histories := fun i =>
      if i = chat_id then lastN 12 (s.chat_histories chat_id ++ [⟨"user", text⟩])
      else s.chat_histories i }

/-- Embeds `add_assistant_message(chat_id, text)`: append an assistant turn,
then keep only the last 12 messages. -/
def add_assistant_message (chat_id : Int) (text : String) (s : Store) : Store :=
  { s with
    chat_histories := fun i =>
      if i = chat_id then lastN 12 (s.chat_histories chat_id ++ [⟨"assistant", text⟩])
      else s.chat_histories i }

/-- Embeds `build_messages(chat_id, user_text)`: optional system prompt, then
the stored history, then the current user message.  Reads the store,
returns only the message list. -/
def build_messages (chat_id : Int) (user_text : String) (s : Store) : List Msg :=
  let msgs : List Msg := []
  let msgs := match s.system_prompts chat_id with
    | some p => msgs ++ [⟨"system", p⟩]
    | none => msgs
  let msgs := msgs ++ s.chat_histories chat_id
  msgs ++ [⟨"user", user_text⟩]

/-- Reply of the `/setprompt` handler when `context.args` is empty. -/
def setpromptUsage : String := "Use: /setprompt <your instruction>"

/-- Embeds `setprompt`: with no argument tokens reply with the usage message
and leave the store untouched; otherwise store `" ".join(args)` as the
chat's system prompt.  Returns the new store and the reply text. -/
def setprompt (chat_id : Int) (args : List String) (s : Store) : Store × String :=
  if args = [] then (s, setpromptUsage)
  else
    ({ s with
        system_prompts := fun i =>
          if i = chat_id then some (String.intercalate " " args)
          else s.system_prompts i },
      "System prompt set for this chat.")

/-- Embeds `clearprompt`: delete the chat's system prompt if present (the
`if chat_id in system_prompts: del ...` always leaves the key absent). -/
def clearprompt (chat_id : Int) (s : Store) : Store × String :=
  ({ s with
      system_prompts := fun i =>
        if i = chat_id then none else s.system_prompts i },
    "System prompt removed (if any).")

/-- Embeds `clear_history`: `chat_histories.pop(chat_id, None)` — the chat's
history becomes absent, i.e. reads back as `[]`. -/
def clear_history (chat_id : Int) (s : Store) : Store × String :=
  ({ s with
      chat_histories := fun i =>
        if i = chat_id then [] else s.chat_histories i },
    "Conversation history cleared.")

/-- The fallback reply built in the `except` branch:
`"দুঃখিত, সার্ভার error হলো: " + str(e)`. -/
def errorReply (e : String) : String :=
  "দুঃখিত, সার্ভার error হলো: " ++ e

/-- Python's `str.strip()` on a character list: drop leading and
trailing whitespace. -/
def stripChars (l : List Char) : List Char :=
  ((l.dropWhile Char.isWhitespace).reverse.dropWhile Char.isWhitespace).reverse

/-- Python's `str.strip()`: the reply text is stored and sent with
surrounding whitespace removed. -/
def pyStrip (s : String) : String :=
  String.mk (stripChars s.toList)

/-- Embeds `[reply[i:i+3900] for i in range(0, len(reply), 3900)]` on the
character list of the reply: consecutive slices of 3900 characters. -/
def chunksOf (l : List Char) : List (List Char) :=
  if l = [] then [] else l.take 3900 :: chunksOf (l.drop 3900)
termination_by l.length
decreasing_by
  simp only [List.length_drop]
  have : l.length ≠ 0 := by
    simpa using List.length_eq_zero.not.mpr (by assumption)
  omega

/-- Everything one run of `handle_message` produces: the state after
both history writes, the message list sent to the API, the reply text,
and the outbound Telegram chunks. -/
structure HandleResult where
  store : Store
  messages : List Msg
  reply : String
  chunks : List String

/-- Embeds `handle_message(update, context)` for a plain text message, with the
completions call's outcome passed in as `api`: record the user turn,
build the API payload, take the trimmed response content (or on any
exception the fixed failure text), record it as an assistant turn, and
split it into ≤3900-character chunks for delivery. -/
def handle_message (chat_id : Int) (user_text : String)
    (api : Except String String) (s : Store) : HandleResult :=
  let s1 := add_user_message chat_id user_text s
  let messages := build_messages chat_id user_text s1
  let reply := match api with
    | .ok content => pyStrip content
    | .error e => errorReply e
  let s2 := add_assistant_message chat_id reply s1
  { store := s2
    messages := messages
    reply := reply
    chunks := (chunksOf reply.toList).map (fun cs => String.mk cs) }

/-- One history append, for stating the global history bound over
arbitrary call sequences. -/
inductive AppendOp where
  | user (chat_id : Int) (text : String)
  | assistant (chat_id : Int) (text : String)

/-- Run one append against the store. -/
def applyOp : AppendOp → Store → Store
  | .user id t, s => add_user_message id t s
  | .assistant id t, s => add_assistant_message id t s

/-- Run a sequence of appends, oldest first. -/
def applyOps (ops : List AppendOp) (s : Store) : Store :=
  ops.foldl (fun s op => applyOp op s) s

/-! ### Helper lemmas about `lastN` and `chunksOf` -/

lemma lastN_length_le (n : Nat) (l : List α) : (lastN n l).length ≤ n := by
  simp only [lastN, List.length_drop]
  omega

lemma lastN_of_length_le {n : Nat} {l : List α} (h : l.length ≤ n) :
    lastN n l = l := by
  simp [lastN, Nat.sub_eq_zero_of_le h]

lemma lastN_concat_of_length_eq {l : List α} (x : α) (h : l.length = 12) :
    lastN 12 (l ++ [x]) = l.tail ++ [x] := by
  have h1 : (l ++ [x]).length - 12 = 1 := by simp [h]
  have h2 : (1 : Nat) ≤ l.length := by omega
  rw [lastN, h1, List.drop_append_of_le_length h2, List.drop_one]

lemma lastN_concat_exists (l : List α) (x : α) :
    ∃ m, lastN 12 (l ++ [x]) = m ++ [x] := by
  rcases le_or_lt (l ++ [x]).length 12 with h | h
  · exact ⟨l, lastN_of_length_le h⟩
  · have h2 : (l ++ [x]).length - 12 ≤ l.length := by
      simp only [List.length_append, List.length_singleton]
      omega
    exact ⟨l.drop ((l ++ [x]).length - 12),
      by rw [lastN, List.drop_append_of_le_length h2]⟩

lemma lastN_concat_getLast? (l : List α) (x : α) :
    (lastN 12 (l ++ [x])).getLast? = some x := by
  obtain ⟨m, hm⟩ := lastN_concat_exists l x
  rw [hm, List.getLast?_concat]

lemma chunksOf_nil : chunksOf [] = [] := by
  simp [chunksOf]

lemma chunksOf_cons {l : List Char} (h : l ≠ []) :
    chunksOf l = l.take 3900 :: chunksOf (l.drop 3900) := by
  rw [chunksOf]
  simp [h]

lemma chunksOf_join_aux (n : Nat) :
    ∀ l : List Char, l.length ≤ n → (chunksOf l).flatten = l := by
  induction n with
  | zero =>
      intro l hl
      have : l = [] := by
        cases l with
        | nil => rfl
        | cons a t => simp at hl
      subst this
      simp [chunksOf_nil]
  | succ n ih =>
      intro l hl
      by_cases h : l = []
      · subst h; simp [chunksOf_nil]
      · rw [chunksOf_cons h]
        have hlen : (l.drop 3900).length ≤ n := by
          simp only [List.length_drop]
          have : l.length ≠ 0 := fun h0 => h (List.length_eq_zero.mp h0)
          omega
        simp only [List.flatten_cons, ih _ hlen]
        exact List.take_append_drop 3900 l

lemma chunksOf_join (l : List Char) : (chunksOf l).flatten = l :=
  chunksOf_join_aux l.length l le_rfl

lemma chunksOf_length_le_aux (n : Nat) :
    ∀ l : List Char, l.length ≤ n → ∀ c ∈ chunksOf l, c.length ≤ 3900 := by
  induction n with
  | zero =>
      intro l hl c hc
      have : l = [] := by
        cases l with
        | nil => rfl
        | cons a t => simp at hl
      subst this
      simp [chunksOf_nil] at hc
  | succ n ih =>
      intro l hl c hc
      by_cases h : l = []
      · subst h; simp [chunksOf_nil] at hc
      · rw [chunksOf_cons h] at hc
        rcases List.mem_cons.mp hc with hc | hc
        · subst hc
          rw [List.length_take]
          omega
        · have hlen : (l.drop 3900).length ≤ n := by
            simp only [List.length_drop]
            have : l.length ≠ 0 := fun h0 => h (List.length_eq_zero.mp h0)
            omega
          exact ih _ hlen c (by simpa using hc)

lemma chunksOf_length_le (l : List Char) : ∀ c ∈ chunksOf l, c.length ≤ 3900 :=
  chunksOf_length_le_aux l.length l le_rfl

lemma chunksOf_ne_nil {l : List Char} (h : l ≠ []) : chunksOf l ≠ [] := by
  rw [chunksOf_cons h]
  exact List.cons_ne_nil _ _

lemma chunksOf_lengths_8000 {l : List Char} (h : l.length = 8000) :
    (chunksOf l).map List.length = [3900, 3900, 200] := by
  have h0 : l ≠ [] := fun hn => by subst hn; simp at h
  have hd1 : (l.drop 3900).length = 4100 := by simp [List.length_drop, h]
  have h1 : l.drop 3900 ≠ [] := fun hn => by rw [hn] at hd1; simp at hd1
  have hd2 : ((l.drop 3900).drop 3900).length = 200 := by
    simp [List.length_drop, h]
  have h2 : (l.drop 3900).drop 3900 ≠ [] := fun hn => by rw [hn] at hd2; simp at hd2
  have hd3 : (((l.drop 3900).drop 3900).drop 3900).length = 0 := by
    simp [List.length_drop, h]
  have h3 : ((l.drop 3900).drop 3900).drop 3900 = [] := List.length_eq_zero.mp hd3
  rw [chunksOf_cons h0, chunksOf_cons h1, chunksOf_cons h2, h3, chunksOf_nil]
  simp [List.length_take, h, hd1, hd2]

/-! ### Invariant machinery for the history bound -/

lemma applyOps_length_le (ops : List AppendOp) (s : Store)
    (h : ∀ i, (s.chat_histories i).length ≤ 12) :
    ∀ i, ((applyOps ops s).chat_histories i).length ≤ 12 := by
  induction ops generalizing s with
  | nil => exact h
  | cons op rest ih =>
      show ∀ i, ((applyOps rest (applyOp op s)).chat_histories i).length ≤ 12
      apply ih
      intro i
      cases op with
      | user cid t =>
          simp only [applyOp, add_user_message]
          split
          · exact lastN_length_le 12 _
          · exact h i
      | assistant cid t =>
          simp only [applyOp, add_assistant_message]
          split
          · exact lastN_length_le 12 _
          · exact h i

/-- C1: starting from the empty store, after any sequence of
`add_user_message`/`add_assistant_message` calls, every chat's stored
history holds at most 12 messages; moreover a single append from any
store state whatsoever leaves the touched history at most 12 long. -/
theorem history_length_le_twelve :
    (∀ (ops : List AppendOp) (id : Int),
      ((applyOps ops initStore).chat_histories id).length ≤ 12) ∧
    (∀ (s : Store) (id : Int) (t : String),
      ((add_user_message id t s).chat_histories id).length ≤ 12 ∧
      ((add_assistant_message id t s).chat_histories id).length ≤ 12) := by
  constructor
  · intro ops id
    exact applyOps_length_le ops initStore (fun i => by simp [initStore]) id
  · intro s id t
    constructor
    · simp only [add_user_message]
      simp only [if_true]
      exact lastN_length_le 12 _
    · simp only [add_assistant_message]
      simp only [if_true]
      exact lastN_length_le 12 _

/-- The 13 user texts of the end-to-end truncation scenario. -/
def texts13 : List String :=
  ["m1", "m2", "m3", "m4", "m5", "m6", "m7", "m8", "m9", "m10", "m11", "m12", "m13"]

/-- A store whose every history already holds 12 messages, for
exercising the truncation branch. -/
def store12 : Store :=
  { chat_histories := fun _ => List.replicate 12 ⟨"user", "x"⟩
    system_prompts := fun _ => none }

/-- C2: truncation is FIFO — from a history of exactly 12 turns, one
more append keeps the tail of the old history (dropping only the oldest
turn, order preserved) followed by the new turn; and 13 consecutive
user appends "m1".."m13" into the empty store leave exactly
"m2".."m13", in order, as user turns. -/
theorem truncation_fifo :
    (∀ (s : Store) (id : Int) (t : String),
      (s.chat_histories id).length = 12 →
      (add_user_message id t s).chat_histories id =
        (s.chat_histories id).tail ++ [⟨"user", t⟩] ∧
      (add_assistant_message id t s).chat_histories id =
        (s.chat_histories id).tail ++ [⟨"assistant", t⟩]) ∧
    (applyOps (texts13.map (fun t => AppendOp.user 0 t)) initStore).chat_histories 0 =
      ["m2", "m3", "m4", "m5", "m6", "m7", "m8", "m9", "m10", "m11", "m12", "m13"].map
        (fun t => ⟨"user", t⟩) := by
  constructor
  · intro s id t h
    constructor
    · simp only [add_user_message]
      simp only [if_true]
      exact lastN_concat_of_length_eq _ h
    · simp only [add_assistant_message]
      simp only [if_true]
      exact lastN_concat_of_length_eq _ h
  · rfl

/-- Witness for C2 at a concrete 12-long history. -/
theorem truncation_fifo_witness :
    (store12.chat_histories 0).length = 12 ∧
    (add_user_message 0 "y" store12).chat_histories 0 =
      (store12.chat_histories 0).tail ++ [⟨"user", "y"⟩] :=
  ⟨by decide, (truncation_fifo.1 store12 0 "y" (by decide)).1⟩

/-- C3: `build_messages` returns exactly the optional system-prompt
entry, then the stored history in order with roles preserved, then the
new user message; with no prompt set, no system entry of any kind
appears.  (`build_messages` takes the store and returns only a list —
it performs no store mutation by construction.) -/
theorem build_messages_spec (s : Store) (id : Int) (t : String) :
    build_messages id t s =
      (match s.system_prompts id with
        | some p => [⟨"system", p⟩]
        | none => []) ++ s.chat_histories id ++ [⟨"user", t⟩] ∧
    (s.system_prompts id = none →
      build_messages id t s = s.chat_histories id ++ [⟨"user", t⟩]) := by
  constructor
  · cases h : s.system_prompts id <;> simp [build_messages, h]
  · intro h
    simp [build_messages, h]

/-- Witness for C3 in the promptless store. -/
theorem build_messages_spec_witness :
    build_messages 0 "hello" initStore =
      initStore.chat_histories 0 ++ [⟨"user", "hello"⟩] :=
  (build_messages_spec initStore 0 "hello").2 rfl

/-- C4: when the completions call raises, `handle_message` still
returns (the handler catches every exception): the reply is the fixed
failure template around the error detail, and that same failure text is
recorded as the newest assistant turn of the chat's history. -/
theorem handle_message_error_recovery (s : Store) (id : Int) (t e : String) :
    (handle_message id t (Except.error e) s).reply = errorReply e ∧
    ((handle_message id t (Except.error e) s).store.chat_histories id).getLast? =
      some ⟨"assistant", errorReply e⟩ := by
  constructor
  · rfl
  · simp only [handle_message, add_assistant_message]
    simp only [if_true]
    exact lastN_concat_getLast? _ _

/-- C5: the reply is split into consecutive chunks, in order, each of at
most 3900 characters, whose concatenation is the original reply; an
8000-character reply yields exactly the chunk lengths 3900, 3900, 200. -/
theorem chunk_split_spec (l : List Char) :
    (∀ c ∈ chunksOf l, c.length ≤ 3900) ∧
    (chunksOf l).flatten = l ∧
    (l.length = 8000 → (chunksOf l).map List.length = [3900, 3900, 200]) :=
  ⟨chunksOf_length_le l, chunksOf_join l, chunksOf_lengths_8000⟩

/-- Witness for C5 on a concrete 8000-character reply. -/
theorem chunk_split_spec_witness :
    (chunksOf (List.replicate 8000 'a')).map List.length = [3900, 3900, 200] ∧
    (chunksOf (List.replicate 8000 'a')).flatten = List.replicate 8000 'a' ∧
    ((List.replicate 8000 'a').take 3900).length ≤ 3900 := by
  have hne : List.replicate 8000 'a' ≠ [] := by
    apply List.ne_nil_of_length_pos
    rw [List.length_replicate]
    omega
  have hmem : (List.replicate 8000 'a').take 3900 ∈ chunksOf (List.replicate 8000 'a') := by
    rw [chunksOf_cons hne]
    exact List.mem_cons_self _ _
  exact ⟨(chunk_split_spec (List.replicate 8000 'a')).2.2 (List.length_replicate _ _),
    (chunk_split_spec (List.replicate 8000 'a')).2.1,
    (chunk_split_spec (List.replicate 8000 'a')).1 _ hmem⟩

/-- C6: `/setprompt` with no argument tokens changes nothing in the
store and replies with the usage error; with a non-empty argument list
it stores (overwriting) the space-joined text as the chat's system
prompt, leaves every history untouched, and confirms. -/
theorem setprompt_spec (s : Store) (id : Int) (args : List String) :
    ((setprompt id [] s).1 = s ∧ (setprompt id [] s).2 = setpromptUsage) ∧
    (args ≠ [] →
      (setprompt id args s).1.system_prompts id =
        some (String.intercalate " " args) ∧
      (setprompt id args s).1.chat_histories = s.chat_histories ∧
      (setprompt id args s).2 = "System prompt set for this chat.") := by
  refine ⟨⟨rfl, rfl⟩, fun h => ?_⟩
  simp [setprompt, h]

/-- Witness for C6 with the concrete argument list `["You", "rock"]`. -/
theorem setprompt_spec_witness :
    (setprompt 0 [] initStore).1 = initStore ∧
    (setprompt 0 ["You", "rock"] initStore).1.system_prompts 0 =
      some (String.intercalate " " ["You", "rock"]) :=
  ⟨(setprompt_spec initStore 0 []).1.1,
    ((setprompt_spec initStore 0 ["You", "rock"]).2 (by simp)).1⟩

/-- C7: `/clear` leaves the chat's history empty (reading it back gives
the empty sequence), and after `/clearprompt` the assembled payload has
no system entry — it is exactly the untouched history followed by the
new user message.  Both operations are total functions: they succeed on
any store, also when the chat has no history or no prompt. -/
theorem clear_operations_spec (s : Store) (id : Int) (t : String) :
    (clear_history id s).1.chat_histories id = [] ∧
    build_messages id t (clearprompt id s).1 =
      s.chat_histories id ++ [⟨"user", t⟩] := by
  constructor
  · simp [clear_history]
  · simp [build_messages, clearprompt]

/-- C8: every store operation touches only its own chat id and its own
kind of state: histories of other chats, prompts of other chats, and
the sibling map of the same chat are all left unchanged. -/
theorem store_isolation (s : Store) (id id' : Int) (t : String)
    (args : List String) (h : id' ≠ id) :
    (add_user_message id t s).chat_histories id' = s.chat_histories id' ∧
    (add_user_message id t s).system_prompts = s.system_prompts ∧
    (add_assistant_message id t s).chat_histories id' = s.chat_histories id' ∧
    (add_assistant_message id t s).system_prompts = s.system_prompts ∧
    (setprompt id args s).1.chat_histories = s.chat_histories ∧
    (setprompt id args s).1.system_prompts id' = s.system_prompts id' ∧
    (clearprompt id s).1.chat_histories = s.chat_histories ∧
    (clearprompt id s).1.system_prompts id' = s.system_prompts id' ∧
    (clear_history id s).1.system_prompts = s.system_prompts ∧
    (clear_history id s).1.chat_histories id' = s.chat_histories id' := by
  by_cases hargs : args = [] <;>
    simp [add_user_message, add_assistant_message, setprompt, clearprompt,
      clear_history, hargs, h]

/-- Witness for C8 across the distinct chat ids 0 and 1. -/
theorem store_isolation_witness :
    (add_user_message 0 "x" initStore).chat_histories 1 = initStore.chat_histories 1 ∧
    (add_user_message 0 "x" initStore).system_prompts = initStore.system_prompts ∧
    (add_assistant_message 0 "x" initStore).chat_histories 1 = initStore.chat_histories 1 ∧
    (add_assistant_message 0 "x" initStore).system_prompts = initStore.system_prompts ∧
    (setprompt 0 ["p"] initStore).1.chat_histories = initStore.chat_histories ∧
    (setprompt 0 ["p"] initStore).1.system_prompts 1 = initStore.system_prompts 1 ∧
    (clearprompt 0 initStore).1.chat_histories = initStore.chat_histories ∧
    (clearprompt 0 initStore).1.system_prompts 1 = initStore.system_prompts 1 ∧
    (clear_history 0 initStore).1.system_prompts = initStore.system_prompts ∧
    (clear_history 0 initStore).1.chat_histories 1 = initStore.chat_histories 1 :=
  store_isolation initStore 0 1 "x" ["p"] (by decide)

lemma toList_ne_nil {s : String} (h : s ≠ "") : s.toList ≠ [] := by
  cases s with
  | mk d => simpa [String.toList] using (fun hd => h (by simp [hd]))

/-- C9: because `handle_message` first appends the user turn to history
and `build_messages` then appends the same user text again, the payload
sent to the completions API always ends with the new user message twice
in a row. -/
theorem payload_duplicate_user (s : Store) (id : Int) (t : String)
    (api : Except String String) :
    ∃ pre, (handle_message id t api s).messages =
      pre ++ [⟨"user", t⟩, ⟨"user", t⟩] := by
  obtain ⟨m, hm⟩ := lastN_concat_exists (s.chat_histories id) (⟨"user", t⟩ : Msg)
  simp only [handle_message, build_messages, add_user_message]
  cases hsp : s.system_prompts id with
  | none => exact ⟨m, by simp [hsp, hm]⟩
  | some p => exact ⟨⟨"system", p⟩ :: m, by simp [hsp, hm]⟩

/-- C10: a response whose content strips to the empty string produces
an empty chunk list — no outbound message is sent — while the empty
reply is still recorded as an assistant turn; any reply that strips to
a non-empty string produces at least one chunk. -/
theorem empty_reply_behavior (s : Store) (id : Int) (t content : String) :
    (pyStrip content = "" →
      (handle_message id t (Except.ok content) s).chunks = [] ∧
      ((handle_message id t (Except.ok content) s).store.chat_histories id).getLast? =
        some ⟨"assistant", ""⟩) ∧
    (pyStrip content ≠ "" →
      (handle_message id t (Except.ok content) s).chunks ≠ []) := by
  constructor
  · intro h
    constructor
    · simp only [handle_message]
      rw [h]
      simp [chunksOf_nil, String.toList]
    · simp only [handle_message, add_assistant_message]
      simp only [if_true]
      rw [h]
      exact lastN_concat_getLast? _ _
  · intro h
    simp only [handle_message]
    intro hc
    rw [List.map_eq_nil_iff] at hc
    exact chunksOf_ne_nil (toList_ne_nil h) hc

/-- Witness for C10: a whitespace-only response yields no chunks, a
non-blank one yields at least one. -/
theorem empty_reply_behavior_witness :
    (handle_message 0 "q" (Except.ok " ") initStore).chunks = [] ∧
    (handle_message 0 "q" (Except.ok "hi") initStore).chunks ≠ [] :=
  ⟨((empty_reply_behavior initStore 0 "q" " ").1 (by decide)).1,
    (empty_reply_behavior initStore 0 "q" "hi").2 (by decide)⟩
